import Mathlib

set_option maxHeartbeats 1000000
set_option maxRecDepth 8000
set_option synthInstance.maxHeartbeats 400000

/-!
Shallow embedding of src/trollsift/parser.py (module-level functions
`_extract_parsedef`, `_extract_values`, `_get_number_from_fmt`, `_convert`,
`parse`, `compose`, `validate`) together with the pieces of the Python
runtime the module leans on: `str.split`, `str.find`, slicing,
`str.isalpha`, `str.lstrip`/`rstrip`/`strip`, `int()`, `str.format`,
`datetime.strftime` and `datetime.strptime`.  Python strings are `List Char`,
Python dicts are insertion-ordered association lists, and exceptions are an
explicit error type threaded through `Except`.  The wall-clock reading
`dt.datetime.now()` performed inside `_get_number_from_fmt` is passed in as
an explicit `now : PyDateTime` argument.
-/

namespace Trollsift

/-- Characters of a Python string. -/
abbrev Str := List Char

/-- Shorthand turning a Lean string literal into its character list. -/
def S (s : String) : Str := s.toList

/-- Exception kinds raised by the modelled Python code paths. -/
inductive PyErr where
  | valueError
  | typeError
  | indexError
  | attributeError
  | keyError
deriving DecidableEq, Repr

/-- Naive Python datetime value with microsecond precision. -/
structure PyDateTime where
  year : Nat
  month : Nat
  day : Nat
  hour : Nat
  minute : Nat
  second : Nat
  microsecond : Nat
deriving DecidableEq, Repr

/-- Values appearing in parse results and compose inputs. -/
inductive PyValue where
  | str (s : Str)
  | int (n : Int)
  | dt (d : PyDateTime)
deriving DecidableEq, Repr

/-- Insertion-ordered dictionary, modelling a Python dict. -/
abbrev PyDict := List (Str × PyValue)

/-- Python dict lookup d[k], as an Option. -/
def dlookup {α : Type} : List (Str × α) → Str → Option α
  | [], _ => none
  | (k', v) :: t, k => if k' = k then some v else dlookup t k

/-- Python dict assignment d[k] = v: update in place if present, else append. -/
def pyInsert {α : Type} : List (Str × α) → Str → α → List (Str × α)
  | [], k, v => [(k, v)]
  | (k', v') :: t, k, v =>
    if k' = k then (k', v) :: t else (k', v') :: pyInsert t k v

/-- Decimal digit character for a value below ten. -/
def digitChar : Nat → Char
  | 0 => '0'
  | 1 => '1'
  | 2 => '2'
  | 3 => '3'
  | 4 => '4'
  | 5 => '5'
  | 6 => '6'
  | 7 => '7'
  | 8 => '8'
  | _ => '9'

/-- Numeric value of a digit character. -/
def cval (c : Char) : Nat := c.toNat - 48

/-- ASCII digit test, matching the character classes of the Python code. -/
def isDig (c : Char) : Bool := 48 ≤ c.toNat && c.toNat ≤ 57

/-- Decimal digits of a natural number, via an explicit fuel argument so the
recursion is structural. -/
def natRenderAux : Nat → Nat → Str
  | 0, _ => []
  | f + 1, n =>
    if n < 10 then [digitChar n]
    else natRenderAux f (n / 10) ++ [digitChar (n % 10)]

/-- Decimal rendering of a natural number. -/
def natRender (n : Nat) : Str := natRenderAux (n + 1) n

/-- Left-pad with a fill character up to a given width. -/
def padL (k : Nat) (c : Char) (s : Str) : Str :=
  List.replicate (k - s.length) c ++ s

/-- Two-digit zero-padded rendering, as strftime produces for %m %d %H %M %S. -/
def pad2 (n : Nat) : Str := if n < 10 then ['0', digitChar n] else natRender n

/-- Accumulating decimal parse of a digit string (int() on validated digits). -/
def parseFold (acc : Nat) (s : Str) : Nat :=
  s.foldl (fun a c => a * 10 + cval c) acc

/-- Python str.split(sep) for a one-character separator: splits at every
occurrence and keeps empty pieces, so the result is never empty. -/
def splitOnChar (c : Char) : Str → List Str
  | [] => [[]]
  | x :: xs =>
    match splitOnChar c xs with
    | [] => [[]]
    | h :: t => if x = c then [] :: h :: t else (x :: h) :: t

/-- Python str.find: index of the first occurrence of needle, or -1. -/
def strFind (needle : Str) : Str → Int
  | [] => if needle.isEmpty then 0 else -1
  | c :: t =>
    if needle.isPrefixOf (c :: t) then 0
    else
      let r := strFind needle t
      if r = -1 then -1 else r + 1

/-- Substring containment, used to model the literal-only regex searches
performed by the source (`re.search` applied to a brace-wrapped field token
and to a digit run); the tokens of interest contain no regex metacharacters,
for which `re.search` degenerates to substring search. -/
def containsSub (needle hay : Str) : Bool := 0 ≤ strFind needle hay

/-- Python slice s[0:i] where the stop index may be negative. -/
def pySliceTo (s : Str) (i : Int) : Str :=
  if 0 ≤ i then s.take i.toNat else s.take (s.length - (-i).toNat)

/-- Python str.isalpha(): nonempty and all alphabetic. -/
def isalphaStr (s : Str) : Bool := !s.isEmpty && s.all Char.isAlpha

/-- Strip a trailing run of one character, Python str.rstrip(c). -/
def stripTrail (c : Char) (s : Str) : Str :=
  (s.reverse.dropWhile (· == c)).reverse

/-- Whitespace test for int() argument stripping. -/
def isSpaceC (c : Char) : Bool := c = ' ' || c = '\t' || c = '\n' || c = '\r'

/-- Python int(string): strip whitespace, optional sign, then a nonempty
all-digit body; anything else raises ValueError. -/
def pyInt (s : Str) : Except PyErr Int :=
  let t := ((s.dropWhile isSpaceC).reverse.dropWhile isSpaceC).reverse
  match t with
  | '-' :: ds =>
    if !ds.isEmpty && ds.all isDig then .ok (-(parseFold 0 ds : Nat))
    else .error .valueError
  | '+' :: ds =>
    if !ds.isEmpty && ds.all isDig then .ok ((parseFold 0 ds : Nat) : Int)
    else .error .valueError
  | ds =>
    if !ds.isEmpty && ds.all isDig then .ok ((parseFold 0 ds : Nat) : Int)
    else .error .valueError

/-- First maximal digit run of a string: re.search('[0-9]+', s), as used by
_get_number_from_fmt; none when the regex does not match. -/
def firstDigitRun : Str → Option Str
  | [] => none
  | c :: r => if isDig c then some (c :: r.takeWhile isDig) else firstDigitRun r

/-- Month names rendered by strftime %B in the C locale. -/
def monthName : Nat → Str
  | 1 => S "January"
  | 2 => S "February"
  | 3 => S "March"
  | 4 => S "April"
  | 5 => S "May"
  | 6 => S "June"
  | 7 => S "July"
  | 8 => S "August"
  | 9 => S "September"
  | 10 => S "October"
  | 11 => S "November"
  | _ => S "December"

/-- datetime.strftime over the directives the repository exercises
(%Y %m %d %H %M %S %f %B and %%); other directive characters pass through
verbatim as glibc does. -/
def strftime (d : PyDateTime) : Str → Str
  | [] => []
  | '%' :: c :: rest =>
    (match c with
     | 'Y' => natRender d.year
     | 'm' => pad2 d.month
     | 'd' => pad2 d.day
     | 'H' => pad2 d.hour
     | 'M' => pad2 d.minute
     | 'S' => pad2 d.second
     | 'f' => padL 6 '0' (natRender d.microsecond)
     | 'B' => monthName d.month
     | '%' => ['%']
     | c' => ['%', c']) ++ strftime d rest
  | ['%'] => ['%']
  | c :: rest => c :: strftime d rest

/-- Take a bounded run of leading digits, greedily. -/
def takeDigits : Nat → Str → Str
  | 0, _ => []
  | _, [] => []
  | k + 1, c :: r => if isDig c then c :: takeDigits k r else []

/-- strptime %Y matcher: one to four digits, greedily. -/
def matchY (s : Str) : Except PyErr (Nat × Str) :=
  match takeDigits 4 s with
  | [] => .error .valueError
  | ds => .ok (parseFold 0 ds, s.drop ds.length)

/-- strptime %m matcher, the alternation 1[0-2] | 0[1-9] | [1-9]. -/
def matchMonth : Str → Except PyErr (Nat × Str)
  | a :: b :: r =>
    if a = '1' && 48 ≤ b.toNat && b.toNat ≤ 50 then .ok (10 + cval b, r)
    else if a = '0' && 49 ≤ b.toNat && b.toNat ≤ 57 then .ok (cval b, r)
    else if 49 ≤ a.toNat && a.toNat ≤ 57 then .ok (cval a, b :: r)
    else .error .valueError
  | [a] =>
    if 49 ≤ a.toNat && a.toNat ≤ 57 then .ok (cval a, []) else .error .valueError
  | [] => .error .valueError

/-- strptime %d matcher, the alternation 3[01] | [12][0-9] | 0[1-9] | [1-9]. -/
def matchDay : Str → Except PyErr (Nat × Str)
  | a :: b :: r =>
    if a = '3' && (b = '0' || b = '1') then .ok (30 + cval b, r)
    else if (a = '1' || a = '2') && isDig b then .ok (cval a * 10 + cval b, r)
    else if a = '0' && 49 ≤ b.toNat && b.toNat ≤ 57 then .ok (cval b, r)
    else if 49 ≤ a.toNat && a.toNat ≤ 57 then .ok (cval a, b :: r)
    else .error .valueError
  | [a] =>
    if 49 ≤ a.toNat && a.toNat ≤ 57 then .ok (cval a, []) else .error .valueError
  | [] => .error .valueError

/-- strptime %H matcher, the alternation 2[0-3] | [0-1][0-9] | [0-9]. -/
def matchHour : Str → Except PyErr (Nat × Str)
  | a :: b :: r =>
    if a = '2' && 48 ≤ b.toNat && b.toNat ≤ 51 then .ok (20 + cval b, r)
    else if (a = '0' || a = '1') && isDig b then .ok (cval a * 10 + cval b, r)
    else if isDig a then .ok (cval a, b :: r)
    else .error .valueError
  | [a] => if isDig a then .ok (cval a, []) else .error .valueError
  | [] => .error .valueError

/-- strptime %M matcher, the alternation [0-5][0-9] | [0-9]. -/
def matchMinute : Str → Except PyErr (Nat × Str)
  | a :: b :: r =>
    if 48 ≤ a.toNat && a.toNat ≤ 53 && isDig b then .ok (cval a * 10 + cval b, r)
    else if isDig a then .ok (cval a, b :: r)
    else .error .valueError
  | [a] => if isDig a then .ok (cval a, []) else .error .valueError
  | [] => .error .valueError

/-- strptime %S matcher, the alternation 6[01] | [0-5][0-9] | [0-9]. -/
def matchSecond : Str → Except PyErr (Nat × Str)
  | a :: b :: r =>
    if a = '6' && (b = '0' || b = '1') then .ok (60 + cval b, r)
    else if 48 ≤ a.toNat && a.toNat ≤ 53 && isDig b then .ok (cval a * 10 + cval b, r)
    else if isDig a then .ok (cval a, b :: r)
    else .error .valueError
  | [a] => if isDig a then .ok (cval a, []) else .error .valueError
  | [] => .error .valueError

/-- strptime %f matcher: one to six digits, right-padded to microseconds. -/
def matchMicro (s : Str) : Except PyErr (Nat × Str) :=
  match takeDigits 6 s with
  | [] => .error .valueError
  | ds => .ok (parseFold 0 ds * 10 ^ (6 - ds.length), s.drop ds.length)

/-- strptime %B matcher: a full month name. -/
def matchMonthName (s : Str) : Except PyErr (Nat × Str) :=
  match (List.range 12).findSome? (fun i =>
      let nm := monthName (i + 1)
      if nm.isPrefixOf s then some (i + 1, s.drop nm.length) else none) with
  | some r => .ok r
  | none => .error .valueError

/-- Directive-by-directive strptime walk; literal format characters must
match the input exactly and a bad directive raises ValueError, as CPython
does.  Arguments: accumulated fields, remaining format, remaining input. -/
def strptimeAux : PyDateTime → Str → Str → Except PyErr PyDateTime
  | d, [], [] => .ok d
  | _, [], _ :: _ => .error .valueError
  | d, '%' :: c :: fr, s =>
    (match c with
     | 'Y' => (matchY s).bind fun p => strptimeAux { d with year := p.1 } fr p.2
     | 'm' => (matchMonth s).bind fun p => strptimeAux { d with month := p.1 } fr p.2
     | 'd' => (matchDay s).bind fun p => strptimeAux { d with day := p.1 } fr p.2
     | 'H' => (matchHour s).bind fun p => strptimeAux { d with hour := p.1 } fr p.2
     | 'M' => (matchMinute s).bind fun p => strptimeAux { d with minute := p.1 } fr p.2
     | 'S' => (matchSecond s).bind fun p => strptimeAux { d with second := p.1 } fr p.2
     | 'f' => (matchMicro s).bind fun p => strptimeAux { d with microsecond := p.1 } fr p.2
     | 'B' => (matchMonthName s).bind fun p => strptimeAux { d with month := p.1 } fr p.2
     | '%' =>
       match s with
       | '%' :: s' => strptimeAux d fr s'
       | _ => .error .valueError
     | _ => .error .valueError)
  | _, ['%'], _ => .error .valueError
  | d, c :: fr, s =>
    match s with
    | c' :: s' => if c = c' then strptimeAux d fr s' else .error .valueError
    | [] => .error .valueError

/-- Days in a month of the proleptic Gregorian calendar. -/
def daysInMonth (y m : Nat) : Nat :=
  if m = 2 then (if y % 4 = 0 && (y % 100 != 0 || y % 400 = 0) then 29 else 28)
  else if m = 4 || m = 6 || m = 9 || m = 11 then 30
  else 31

/-- dt.datetime.strptime(stri, fmt): directive matching from the 1900-01-01
defaults, then the datetime constructor's range validation; every failure is
a ValueError. -/
def strptime (stri fmtS : Str) : Except PyErr PyDateTime := do
  let d ← strptimeAux ⟨1900, 1, 1, 0, 0, 0, 0⟩ fmtS stri
  if 1 ≤ d.year && d.year ≤ 9999 && 1 ≤ d.day && d.day ≤ daysInMonth d.year d.month
      && d.hour ≤ 23 && d.minute ≤ 59 && d.second ≤ 59 then
    .ok d
  else .error .valueError

/-- Entry of the parse definition produced by _extract_parsedef: a literal
piece of the template or a field with its optional conversion spec. -/
inductive PEntry where
  | lit (text : Str)
  | fld (key : Str) (fmt : Option Str)
deriving DecidableEq, Repr

/-- Model of _extract_parsedef(fmt): split on every closing then opening
brace; a nonempty token containing ':' becomes a field with a spec (recorded
in convdef as well, later assignments overwriting earlier ones in place); a
token without ':' becomes a bare field when the brace-wrapped token occurs in
fmt, and a literal otherwise.  No brace balancing is checked, and the
function never raises. -/
def extract_parsedef (fmtS : Str) : List PEntry × List (Str × Str) :=
  (splitOnChar '}' fmtS).foldl (fun acc part1 =>
    (splitOnChar '{' part1).foldl (fun acc part2 =>
      if part2 = [] then acc
      else if part2.contains ':' then
        let ps := splitOnChar ':' part2
        let nm := ps.headD []
        let sp := (ps.drop 1).headD []
        (acc.1 ++ [.fld nm (some sp)], pyInsert acc.2 nm sp)
      else if containsSub ('{' :: part2 ++ ['}']) fmtS then
        (acc.1 ++ [.fld part2 none], acc.2)
      else (acc.1 ++ [.lit part2], acc.2)) acc) ([], [])

/-- Model of _get_number_from_fmt(fmt): for a datetime spec, the length of
formatting dt.datetime.now() (the explicit now argument) with it; otherwise
int of the first digit run after stripping leading zeros, where a missing
digit run is the AttributeError of calling .group(0) on None. -/
def get_number_from_fmt (fmtS : Str) (now : PyDateTime) : Except PyErr Nat :=
  if fmtS.contains '%' then .ok (strftime now fmtS).length
  else
    match firstDigitRun (fmtS.dropWhile (· == '0')) with
    | none => .error .attributeError
    | some run => .ok (parseFold 0 run)

/-- Model of _extract_values(parsedef, stri).  A literal must occur at index
zero or ValueError is raised.  A field whose spec is None or letters-only is
greedy: the next parse definition entry is read, raising IndexError when
there is none and TypeError when it is another field (str.find on a dict);
otherwise the value is the slice up to str.find of the next literal (slice
semantics applying when find returns -1).  Any other field consumes the
slice of get_number_from_fmt characters.  Key assignments are made after the
recursive call returns, as in the source. -/
def extract_values (now : PyDateTime) : List PEntry → Str → Except PyErr PyDict
  | [], _ => .ok []
  | .lit t :: rest, stri =>
    if strFind t stri = 0 then extract_values now rest (stri.drop t.length)
    else .error .valueError
  | .fld key fmtO :: rest, stri =>
    if fmtO = none || isalphaStr (fmtO.getD []) then
      match rest with
      | [] => .error .indexError
      | .fld _ _ :: _ => .error .typeError
      | .lit nm :: _ =>
        let value := pySliceTo stri (strFind nm stri)
        (extract_values now rest (stri.drop value.length)).map
          (fun kv => pyInsert kv key (.str value))
    else do
      let num ← get_number_from_fmt (fmtO.getD []) now
      let value := stri.take num
      (extract_values now rest (stri.drop value.length)).map
        (fun kv => pyInsert kv key (.str value))

/-- Model of _convert(convdef, stri): datetime specs go through strptime;
specs containing 'd' strip the fill character per the alignment character
and then apply int(); all other specs return the string unchanged. -/
def convert (convdef stri : Str) : Except PyErr PyValue :=
  if convdef.contains '%' then (strptime stri convdef).map .dt
  else if convdef.contains 'd' then
    let c0 := convdef.headD ' '
    let stri2 :=
      if convdef.contains '>' then stri.dropWhile (· == c0)
      else if convdef.contains '<' then stripTrail c0 stri
      else if convdef.contains '^' then stripTrail c0 (stri.dropWhile (· == c0))
      else stri
    (pyInt stri2).map .int
  else .ok (.str stri)

/-- One iteration of parse's conversion loop, keyvals[key] =
_convert(convdef[key], keyvals[key]): a missing key is a KeyError; the value
read is always a raw string while the loop runs (a non-string is modelled as
the TypeError the datetime/int conversions would raise on it). -/
def convStep (kv : PyDict) (kf : Str × Str) : Except PyErr PyDict :=
  match dlookup kv kf.1 with
  | none => .error .keyError
  | some (.str raw) => do
    let c ← convert kf.2 raw
    pure (pyInsert kv kf.1 c)
  | some _ => .error .typeError

/-- Model of parse(fmt, stri): extract the parse definition, extract raw
values, then convert each spec-carrying key in convdef insertion order,
updating the dict in place. -/
def parse (fmtS stri : Str) (now : PyDateTime) : Except PyErr PyDict := do
  let pc := extract_parsedef fmtS
  let keyvals ← extract_values now pc.1 stri
  pc.2.foldlM convStep keyvals

/-- Decimal rendering of a Python int. -/
def intRender (n : Int) : Str :=
  if n < 0 then '-' :: natRender n.natAbs else natRender n.toNat

/-- str(datetime): ISO-like rendering with a space separator, fractional
part only when microseconds are nonzero. -/
def dtStr (d : PyDateTime) : Str :=
  padL 4 '0' (natRender d.year) ++ '-' :: pad2 d.month ++ '-' :: pad2 d.day
    ++ ' ' :: pad2 d.hour ++ ':' :: pad2 d.minute ++ ':' :: pad2 d.second
    ++ (if d.microsecond = 0 then [] else '.' :: padL 6 '0' (natRender d.microsecond))

/-- str() of a value, used by str.format for fields without a format spec. -/
def pyStrOf : PyValue → Str
  | .str s => s
  | .int n => intRender n
  | .dt d => dtStr d

/-- Alignment characters of the format-spec mini-language. -/
def alignChar (c : Char) : Bool := c = '<' || c = '>' || c = '^' || c = '='

/-- Leading fill and alignment of a scalar format spec: an alignment in the
second position makes the first the fill character; otherwise a leading
alignment stands alone; the defaults are a space fill and no alignment. -/
def parseFillAlign : Str → Char × Option Char × Str
  | a :: b :: r =>
    if alignChar b then (a, some b, r)
    else if alignChar a then (' ', some a, b :: r)
    else (' ', none, a :: b :: r)
  | [a] => if alignChar a then (' ', some a, []) else (' ', none, [a])
  | [] => (' ', none, [])

/-- Pad a rendered body to the requested width on the side the alignment
dictates; centering puts the extra character on the right. -/
def padSide (fill : Char) (align : Char) (width : Nat) (body : Str) : Str :=
  if width ≤ body.length then body
  else
    let padn := width - body.length
    if align = '<' then body ++ List.replicate padn fill
    else if align = '^' then
      List.replicate (padn / 2) fill ++ body ++ List.replicate (padn - padn / 2) fill
    else List.replicate padn fill ++ body

/-- format(int, spec) body: sign, then fill between sign and digits for '='
alignment or the '0' flag, otherwise padding around the signed digits. -/
def intFmt (n : Int) (fill : Char) (alignO : Option Char) (zero : Bool)
    (width : Nat) : Str :=
  let sign : Str := if n < 0 then ['-'] else []
  let digits := natRender n.natAbs
  match alignO with
  | some a =>
    if a = '=' then sign ++ List.replicate (width - (sign.length + digits.length)) fill ++ digits
    else padSide fill a width (sign ++ digits)
  | none =>
    if zero then sign ++ List.replicate (width - (sign.length + digits.length)) '0' ++ digits
    else padSide ' ' '>' width (sign ++ digits)

/-- format(value, spec) for the subset of the format-spec mini-language the
repository exercises: a datetime formats through strftime whenever the spec
is nonempty; a spec containing '%' is invalid for other values; otherwise
[[fill]align]['0'][width][type] with type 's' or 'd', erring on a type and
value mismatch as CPython does. -/
def formatValue (v : PyValue) (spec : Str) : Except PyErr Str :=
  match v with
  | .dt t => if spec = [] then .ok (dtStr t) else .ok (strftime t spec)
  | _ =>
    if spec.contains '%' then .error .valueError
    else
      let fa := parseFillAlign spec
      let zr : Bool × Str :=
        match fa.2.2 with
        | '0' :: r => (true, r)
        | r => (false, r)
      let width := parseFold 0 (zr.2.takeWhile isDig)
      let ty := zr.2.dropWhile isDig
      match v, ty with
      | .str s, [] =>
        if zr.1 then .error .valueError
        else .ok (padSide fa.1 (fa.2.1.getD '<') width s)
      | .str s, ['s'] =>
        if zr.1 then .error .valueError
        else .ok (padSide fa.1 (fa.2.1.getD '<') width s)
      | .int n, [] => .ok (intFmt n fa.1 fa.2.1 zr.1 width)
      | .int n, ['d'] => .ok (intFmt n fa.1 fa.2.1 zr.1 width)
      | _, _ => .error .valueError

/-- Split the text inside a replacement field at the first ':' into field
name and format spec; no ':' leaves an empty spec, which formats like str(). -/
def splitFieldTok (acc : Str) : Str × Str :=
  if acc.contains ':' then
    (acc.takeWhile (· ≠ ':'), (acc.dropWhile (· ≠ ':')).drop 1)
  else (acc, [])

/-- str.format walk over the template: doubled braces escape, a lone closing
brace is a ValueError, an opening brace switches to field-collection mode
(the some state carries the collected field text); a completed field looks
its name up (KeyError when absent) and renders through formatValue. -/
def pyFmtAux (V : PyDict) : Str → Option Str → Except PyErr Str
  | '{' :: '{' :: r, none => (pyFmtAux V r none).map (fun t => '{' :: t)
  | '}' :: '}' :: r, none => (pyFmtAux V r none).map (fun t => '}' :: t)
  | '{' :: r, none => pyFmtAux V r (some [])
  | '}' :: _, none => .error .valueError
  | c :: r, none => (pyFmtAux V r none).map (fun t => c :: t)
  | [], none => .ok []
  | '}' :: r, some acc =>
    (match dlookup V (splitFieldTok acc).1 with
     | none => .error .keyError
     | some v => do
       let rend ← formatValue v (splitFieldTok acc).2
       let t ← pyFmtAux V r none
       pure (rend ++ t))
  | c :: r, some acc => pyFmtAux V r (some (acc ++ [c]))
  | [], some _ => .error .valueError

/-- Model of compose(fmt, keyvals) = fmt.format(**keyvals). -/
def compose (fmtS : Str) (keyvals : PyDict) : Except PyErr Str :=
  pyFmtAux keyvals fmtS none

/-- Field names referenced by a template, in the order str.format reads
them; mirrors the walk of pyFmtAux. -/
def refNamesAux : Str → Option Str → List Str
  | '{' :: '{' :: r, none => refNamesAux r none
  | '}' :: '}' :: r, none => refNamesAux r none
  | '{' :: r, none => refNamesAux r (some [])
  | '}' :: _, none => []
  | _ :: r, none => refNamesAux r none
  | [], none => []
  | '}' :: r, some acc => (splitFieldTok acc).1 :: refNamesAux r none
  | c :: r, some acc => refNamesAux r (some (acc ++ [c]))
  | [], some _ => []

/-- Model of validate(fmt, stri): parse under a try that catches exactly
ValueError; success is True, a caught ValueError is False, and any other
exception propagates. -/
def validate (fmtS stri : Str) (now : PyDateTime) : Except PyErr Bool :=
  match parse fmtS stri now with
  | .ok _ => .ok true
  | .error .valueError => .ok false
  | .error e => .error e

/-- Reference wall-clock instant used to instantiate now in closed facts. -/
def nowA : PyDateTime := ⟨2014, 2, 10, 10, 4, 0, 0⟩

/-- Wall-clock instant in May, where strftime %B renders three characters. -/
def nowMay : PyDateTime := ⟨2024, 5, 1, 0, 0, 0, 0⟩

/-- Wall-clock instant in September, where strftime %B renders nine. -/
def nowSep : PyDateTime := ⟨2024, 9, 1, 0, 0, 0, 0⟩

/-- Template of the repository's integration test. -/
def testFmt : Str :=
  S "/somedir/\x7bdirectory\x7d/hrpt_\x7bplatform:4s\x7d\x7bplatnum:2s\x7d_\x7btime:%Y%m%d_%H%M\x7d_\x7borbit:05d\x7d.l1b"

/-- Template of the OLCI level-1b integration test, first three fields. -/
def olciFmt : Str :=
  S "\x7bmission_id:3s\x7d_OL_1_\x7bdatatype_id:_<6s\x7d_\x7bduration:4d\x7d"

/-- Input string of the OLCI integration test, truncated to those fields. -/
def olciStr : Str := S "S3A_OL_1_EFR____0001"

/-- Unbalanced template of the malformed-template scenario. -/
def badFmt : Str := S "\x7bname:"

/-- Value mapping of the integration test, with the field values symbolic. -/
def tV (d p n : Str) (t : PyDateTime) (o : Nat) : PyDict :=
  [(S "directory", .str d), (S "platform", .str p), (S "platnum", .str n),
   (S "time", .dt t), (S "orbit", .int (o : Int))]

/-- Width a format spec resolves to through _get_number_from_fmt, when it
resolves at all. -/
def widthOf (f : Str) (now : PyDateTime) : Option Nat :=
  match get_number_from_fmt f now with
  | .ok w => some w
  | .error _ => none

/-- Parse definitions made only of literals and fixed-width fields. -/
def FixedOnly (now : PyDateTime) : List PEntry → Bool
  | [] => true
  | .lit _ :: r => FixedOnly now r
  | .fld _ none :: _ => false
  | .fld _ (some f) :: r =>
    !isalphaStr f && (widthOf f now).isSome && FixedOnly now r

/-- Position p of the input lies inside the span a literal segment of the
parse definition consumes (spans are content-independent for fixed-width
parse definitions). -/
def litAt (now : PyDateTime) : List PEntry → Nat → Bool
  | [], _ => false
  | .lit t :: r, p => p < t.length || (t.length ≤ p && litAt now r (p - t.length))
  | .fld _ none :: _, _ => false
  | .fld _ (some f) :: r, p =>
    match widthOf f now with
    | none => false
    | some w => w ≤ p && litAt now r (p - w)

/-- Parse definitions with no datetime-directive field spec. -/
def noDatetime (pd : List PEntry) : Bool :=
  pd.all fun e =>
    match e with
    | .fld _ (some f) => !f.contains '%'
    | _ => true

/-- Template pieces free of brace characters. -/
def braceFree (cs : Str) : Bool := cs.all fun c => c ≠ '{' && c ≠ '}'

/-- Datetime directive string of the integration-test template. -/
def fmtT : Str := S "%Y%m%d_%H%M"

/-! Helper lemmas shared by the claim theorems. -/

theorem ebind_ok {ε α β : Type} (a : α) (f : α → Except ε β) :
    (Except.ok a >>= f : Except ε β) = f a := rfl

theorem ebind_err {ε α β : Type} (e : ε) (f : α → Except ε β) :
    (Except.error e >>= f : Except ε β) = .error e := rfl

theorem emap_ok {ε α β : Type} (a : α) (f : α → β) :
    ((Except.ok a : Except ε α).map f) = .ok (f a) := rfl

theorem emap_err {ε α β : Type} (e : ε) (f : α → β) :
    ((Except.error e : Except ε α).map f) = (.error e : Except ε β) := rfl

theorem strFind_eq_zero_iff (t s : Str) : strFind t s = 0 ↔ t.isPrefixOf s = true := by
  cases s with
  | nil =>
    rcases t with _ | ⟨c, t⟩ <;> simp [strFind, List.isPrefixOf]
  | cons c tl =>
    rw [strFind]
    cases hp : t.isPrefixOf (c :: tl) with
    | true => simp
    | false =>
      simp only [Bool.false_eq_true, if_false, iff_false]
      intro hz
      by_cases hr : strFind t tl = -1
      · rw [if_pos hr] at hz; omega
      · rw [if_neg hr] at hz; omega

theorem dlookup_pyInsert {α : Type} (d : List (Str × α)) (k : Str) (v : α) :
    dlookup (pyInsert d k v) k = some v := by
  induction d with
  | nil => simp [pyInsert, dlookup]
  | cons hd tl ih =>
    obtain ⟨k', v'⟩ := hd
    by_cases h : k' = k <;> simp [pyInsert, dlookup, h, ih]

theorem dlookup_append_of_isSome {α : Type} (V e : List (Str × α)) (k : Str)
    (h : (dlookup V k).isSome = true) : dlookup (V ++ e) k = dlookup V k := by
  induction V with
  | nil => simp [dlookup] at h
  | cons hd tl ih =>
    obtain ⟨k', v'⟩ := hd
    by_cases hk : k' = k
    · simp [dlookup, hk]
    · simp only [dlookup, hk, if_false] at h ⊢
      exact ih h

theorem drop_length_take (s : Str) (w : Nat) : s.drop (s.take w).length = s.drop w := by
  rcases le_total w s.length with h | h
  · simp [List.length_take, Nat.min_eq_left h]
  · rw [List.length_take, Nat.min_eq_right h, List.drop_length,
      List.drop_eq_nil_of_le h]

/-- Stepping lemma for a fixed-width field at the head of the parse
definition: the raw value is the take of the resolved width and the rest of
the input is its drop, independently of the content of either. -/
theorem extract_fixed_step (now : PyDateTime) (key f : Str) (rest : List PEntry)
    (s : Str) (w : Nat) (h1 : isalphaStr f = false)
    (h2 : get_number_from_fmt f now = .ok w) :
    extract_values now (.fld key (some f) :: rest) s =
      (extract_values now rest (s.drop w)).map
        (fun kv => pyInsert kv key (.str (s.take w))) := by
  rw [extract_values.eq_def]
  simp only [Option.getD_some, h2, h1]
  rw [if_neg (by simp)]
  show (extract_values now rest (s.drop (s.take w).length)).map _ = _
  rw [drop_length_take]

theorem get_number_now_indep (f : Str) (now now' : PyDateTime)
    (h : f.contains '%' = false) :
    get_number_from_fmt f now = get_number_from_fmt f now' := by
  have h' : ¬ ('%' ∈ f) := by simpa using h
  unfold get_number_from_fmt
  rw [if_neg (by simpa using h'), if_neg (by simpa using h')]

theorem extract_values_now_indep (pd : List PEntry) (h : noDatetime pd = true) :
    ∀ s now now', extract_values now pd s = extract_values now' pd s := by
  induction pd with
  | nil => intro s now now'; rfl
  | cons e rest ih =>
    have hrest : noDatetime rest = true := by
      simp only [noDatetime, List.all_cons, Bool.and_eq_true] at h
      exact h.2
    intro s now now'
    cases e with
    | lit t =>
      rw [extract_values.eq_def, extract_values.eq_def]
      by_cases hf : strFind t s = 0
      · simp only [hf, if_pos rfl, if_true]
        exact ih hrest _ now now'
      · simp [hf]
    | fld key fmtO =>
      rw [extract_values.eq_def, extract_values.eq_def]
      by_cases hg : (decide (fmtO = none) || isalphaStr (fmtO.getD [])) = true
      · simp only [hg, if_true]
        cases rest with
        | nil => rfl
        | cons r2 rest2 =>
          cases r2 with
          | fld _ _ => rfl
          | lit nm =>
            show Except.map _ (extract_values now _ _) = Except.map _ (extract_values now' _ _)
            exact congrArg _ (ih hrest _ now now')
      · simp only [hg, if_false, Bool.false_eq_true]
        have hp : (fmtO.getD []).contains '%' = false := by
          cases fmtO with
          | none => simp at hg
          | some f =>
            simp only [noDatetime, List.all_cons, Bool.and_eq_true] at h
            simpa using h.1
        rw [get_number_now_indep _ now now' hp]
        cases get_number_from_fmt (fmtO.getD []) now' with
        | error e => rfl
        | ok w =>
          show Except.map _ (extract_values now _ _) = Except.map _ (extract_values now' _ _)
          exact congrArg _ (ih hrest _ now now')

/-- Claim C2 (corrected) — validate returns true exactly when parse
succeeds, returns false exactly when parse raises ValueError (a literal
mismatch or a conversion failure), and re-raises every other exception
unchanged. -/
theorem validate_iff_parse (fmtS s : Str) (now : PyDateTime) :
    (validate fmtS s now = .ok true ↔ ∃ m, parse fmtS s now = .ok m) ∧
    (validate fmtS s now = .ok false ↔ parse fmtS s now = .error .valueError) ∧
    (∀ e, e ≠ PyErr.valueError →
      (validate fmtS s now = .error e ↔ parse fmtS s now = .error e)) := by
  cases h : parse fmtS s now with
  | ok _m =>
    exact ⟨by simp [validate, h], by simp [validate, h],
      fun e he => by simp [validate, h]⟩
  | error e =>
    cases e with
    | valueError =>
      refine ⟨by simp [validate, h], by simp [validate, h], fun e' he' => ?_⟩
      simp only [validate, h]
      constructor
      · intro hh; cases hh
      · intro hh; exact absurd (Except.error.inj hh).symm he'
    | typeError =>
      exact ⟨by simp [validate, h], by simp [validate, h],
        fun e' he' => by simp [validate, h]⟩
    | indexError =>
      exact ⟨by simp [validate, h], by simp [validate, h],
        fun e' he' => by simp [validate, h]⟩
    | attributeError =>
      exact ⟨by simp [validate, h], by simp [validate, h],
        fun e' he' => by simp [validate, h]⟩
    | keyError =>
      exact ⟨by simp [validate, h], by simp [validate, h],
        fun e' he' => by simp [validate, h]⟩

/-- Witness for validate_iff_parse at the adjacent-greedy template. -/
theorem validate_iff_parse_witness :
    validate (S "\x7ba\x7d\x7bb\x7d") (S "xy") nowA = .error .typeError ↔
      parse (S "\x7ba\x7d\x7bb\x7d") (S "xy") nowA = .error .typeError :=
  (validate_iff_parse (S "\x7ba\x7d\x7bb\x7d") (S "xy") nowA).2.2
    PyErr.typeError (by decide)

/-- Counterexample for claim C2: on the adjacent-greedy template the
boundary-undetermined situation raises TypeError, which validate propagates
instead of converting to false as the claim asserts. -/
theorem validate_ambiguous_propagates_cex :
    validate (S "\x7ba\x7d\x7bb\x7d") (S "xy") nowA = .error .typeError ∧
      (Except.error PyErr.typeError : Except PyErr Bool) ≠ .ok false :=
  ⟨rfl, by simp⟩

/-- Counterexample for claim C3: compilation of the unbalanced template
succeeds (there is no brace-balance check and no FormatSyntaxError), and
validate raises AttributeError from the failed width regex instead. -/
theorem malformed_template_compiles_cex :
    extract_parsedef badFmt = ([.fld (S "name") (some [])], [(S "name", ([] : Str))]) ∧
      validate badFmt (S "x") nowA = .error .attributeError :=
  ⟨rfl, rfl⟩

/-- Claim C3 (corrected) — compiling the unbalanced template never raises;
the empty spec instead makes every parse (and hence validate, for every
input and any clock value) raise AttributeError from the width computation,
an error validate does not suppress. -/
theorem validate_malformed_raises (s : Str) (now : PyDateTime) :
    validate badFmt s now = .error .attributeError := rfl

/-- Claim C4 (corrected) — a greedy field with no following literal always
makes extraction fail: IndexError when the field is the final segment (the
remainder of the input is not consumed) and TypeError when another field
follows; parse propagates the IndexError for the one-field template. -/
theorem greedy_no_following_literal_fails (now : PyDateTime) (key s : Str) :
    extract_values now [.fld key none] s = .error .indexError ∧
    (∀ k2 f2 rest, extract_values now (.fld key none :: .fld k2 f2 :: rest) s
      = .error .typeError) ∧
    parse (S "\x7ba\x7d") s now = .error .indexError :=
  ⟨rfl, fun _ _ _ => rfl, rfl⟩

/-- Counterexample for claim C4: the final-segment greedy field raises
IndexError rather than consuming the remainder and succeeding. -/
theorem greedy_final_segment_cex :
    parse (S "\x7ba\x7d") (S "xyz") nowA = .error .indexError ∧
      ∀ m : PyDict, (Except.error PyErr.indexError : Except PyErr PyDict) ≠ .ok m :=
  ⟨rfl, fun _m h => Except.noConfusion h⟩

/-- Claim C5 (code_bug) — parsing the OLCI input yields mission_id S3A and
duration 1 as the test expects, but datatype_id keeps its fill characters:
_convert only strips fill for specs containing d, so the _<6s field returns
the raw six characters EFR___ while the repository's own integration test
asserts EFR. -/
theorem olci_fill_not_stripped :
    parse olciFmt olciStr nowA =
      .ok [(S "duration", .int 1), (S "datatype_id", .str (S "EFR___")),
           (S "mission_id", .str (S "S3A"))] ∧
      PyValue.str (S "EFR___") ≠ PyValue.str (S "EFR") :=
  ⟨rfl, by decide⟩

/-- Claim C6 (corrected) — a fixed-width field consumes the take of the
resolved width regardless of content (even characters equal to the next
literal), which is exactly width characters when at least that many remain
and the whole remainder otherwise. -/
theorem fixed_width_consumes_min (now : PyDateTime) (key f : Str)
    (rest : List PEntry) (s : Str) (w : Nat) (h1 : isalphaStr f = false)
    (h2 : get_number_from_fmt f now = .ok w) :
    extract_values now (.fld key (some f) :: rest) s =
      (extract_values now rest (s.drop w)).map
        (fun kv => pyInsert kv key (.str (s.take w))) ∧
    (s.take w).length = min w s.length :=
  ⟨extract_fixed_step now key f rest s w h1 h2, by simp⟩

/-- Witness for fixed_width_consumes_min where the field content equals the
following literal's text. -/
theorem fixed_width_consumes_min_witness :
    extract_values nowA [.fld (S "a") (some (S "2s")), .lit (S "ab")] (S "abab") =
      (extract_values nowA [.lit (S "ab")] ((S "abab").drop 2)).map
        (fun kv => pyInsert kv (S "a") (.str ((S "abab").take 2))) ∧
    ((S "abab").take 2).length = min 2 (S "abab").length :=
  fixed_width_consumes_min nowA (S "a") (S "2s") [.lit (S "ab")] (S "abab") 2 rfl rfl

/-- Counterexample for claim C6: with width 4 resolved for the only field,
the two-character input is consumed whole and parse still succeeds, so the
field did not consume exactly four characters. -/
theorem fixed_width_short_input_cex :
    get_number_from_fmt (S "4d") nowA = .ok 4 ∧
    (S "12").length = 2 ∧
    parse (S "\x7ba:4d\x7d") (S "12") nowA = .ok [(S "a", .int 12)] :=
  ⟨rfl, rfl, rfl⟩

/-- Claim C8 (corrected) — when extraction succeeds, the value reported for
a field name is the one extracted at its first (leftmost) occurrence: the
head field's assignment happens after the recursive call returns and
overwrites anything later occurrences wrote. -/
theorem duplicate_first_occurrence_wins (now : PyDateTime) (key f : Str)
    (rest : List PEntry) (s : Str) (w : Nat) (m : PyDict)
    (h1 : isalphaStr f = false) (h2 : get_number_from_fmt f now = .ok w)
    (h3 : extract_values now (.fld key (some f) :: rest) s = .ok m) :
    dlookup m key = some (.str (s.take w)) := by
  rw [extract_fixed_step now key f rest s w h1 h2] at h3
  cases hrec : extract_values now rest (s.drop w) with
  | error e => rw [hrec, emap_err] at h3; cases h3
  | ok kv =>
    rw [hrec, emap_ok] at h3
    cases h3
    exact dlookup_pyInsert kv key _

/-- Witness for duplicate_first_occurrence_wins on a template repeating the
field a, where the result holds the first occurrence's value. -/
theorem duplicate_first_occurrence_wins_witness :
    dlookup [(S "a", PyValue.str (S "x"))] (S "a") = some (.str ((S "x_y").take 1)) :=
  duplicate_first_occurrence_wins nowA (S "a") (S "1s")
    [.lit (S "_"), .fld (S "a") (some (S "1s"))] (S "x_y") 1
    [(S "a", PyValue.str (S "x"))] rfl rfl rfl

/-- Counterexample for claim C8: parsing x_y with the duplicate-field
template reports the first occurrence's value x, not the last one's y. -/
theorem duplicate_last_wins_cex :
    parse (S "\x7ba:1s\x7d_\x7ba:1s\x7d") (S "x_y") nowA
      = .ok [(S "a", .str (S "x"))] ∧
      PyValue.str (S "x") ≠ PyValue.str (S "y") :=
  ⟨rfl, by decide⟩

theorem widthOf_eq_some_iff (f : Str) (now : PyDateTime) (w : Nat) :
    widthOf f now = some w ↔ get_number_from_fmt f now = .ok w := by
  unfold widthOf
  cases hg : get_number_from_fmt f now <;> simp

theorem getElem?_append_mid (a b : Str) (c : Char) :
    (a ++ c :: b)[a.length]? = some c := by
  rw [List.getElem?_append_right (Nat.le_refl a.length)]
  simp

theorem prefix_getElem? (t s : Str) (i : Nat) (h : t <+: s) (hi : i < t.length) :
    s[i]? = t[i]? := by
  conv_rhs => rw [List.prefix_iff_eq_take.mp h]
  rw [List.getElem?_take, if_pos hi]

/-- Mutation of a character inside a literal span of a fixed-width parse
definition breaks extraction with ValueError. -/
theorem literal_region_mutation_aux (now : PyDateTime) (pd : List PEntry) :
    ∀ (a b : Str) (c c' : Char) (m : PyDict),
      FixedOnly now pd = true →
      litAt now pd a.length = true →
      extract_values now pd (a ++ c :: b) = .ok m →
      c ≠ c' →
      extract_values now pd (a ++ c' :: b) = .error .valueError := by
  induction pd with
  | nil =>
    intro a b c c' m _hf hl _hok _hne
    simp [litAt] at hl
  | cons e rest ih =>
    intro a b c c' m hf hl hok hne
    cases e with
    | fld key fmtO =>
      cases fmtO with
      | none => simp [FixedOnly] at hf
      | some f =>
        simp only [FixedOnly, Bool.and_eq_true, Bool.not_eq_true'] at hf
        obtain ⟨⟨halpha, hsome⟩, hfrest⟩ := hf
        obtain ⟨w, hw⟩ := Option.isSome_iff_exists.mp hsome
        have hgn : get_number_from_fmt f now = .ok w := (widthOf_eq_some_iff f now w).mp hw
        simp only [litAt, hw, Bool.and_eq_true, decide_eq_true_eq] at hl
        obtain ⟨hwle, hlrest⟩ := hl
        rw [extract_fixed_step now key f rest _ w halpha hgn] at hok
        rw [extract_fixed_step now key f rest _ w halpha hgn]
        rw [List.drop_append_of_le_length hwle] at hok
        rw [List.drop_append_of_le_length hwle]
        cases hrec : extract_values now rest (a.drop w ++ c :: b) with
        | error e => rw [hrec, emap_err] at hok; cases hok
        | ok kv =>
          have hl' : litAt now rest (a.drop w).length = true := by
            rw [List.length_drop]; exact hlrest
          rw [ih (a.drop w) b c c' kv hfrest hl' hrec hne, emap_err]
    | lit t =>
      simp only [FixedOnly] at hf
      rw [extract_values.eq_def] at hok
      by_cases hpf : strFind t (a ++ c :: b) = 0
      · simp only [hpf, if_pos rfl, if_true] at hok
        have hpre : t <+: (a ++ c :: b) :=
          List.isPrefixOf_iff_prefix.mp ((strFind_eq_zero_iff t _).mp hpf)
        simp only [litAt, Bool.or_eq_true, Bool.and_eq_true, decide_eq_true_eq] at hl
        rcases hl with h1 | ⟨h2, hlrest⟩
        · rw [extract_values.eq_def]
          have hnp : ¬ t <+: (a ++ c' :: b) := by
            intro hpre'
            have e1 : (a ++ c :: b)[a.length]? = t[a.length]? :=
              prefix_getElem? t _ a.length hpre h1
            have e2 : (a ++ c' :: b)[a.length]? = t[a.length]? :=
              prefix_getElem? t _ a.length hpre' h1
            rw [getElem?_append_mid] at e1 e2
            rw [← e2] at e1
            exact hne (Option.some.inj e1)
          have hnf : ¬ strFind t (a ++ c' :: b) = 0 := by
            rw [strFind_eq_zero_iff]
            simpa using hnp
          simp [hnf]
        · have htake : t = (a ++ c' :: b).take t.length := by
            have h3 := List.prefix_iff_eq_take.mp hpre
            rw [List.take_append_of_le_length h2] at h3 ⊢
            exact h3
          have hpre' : t <+: (a ++ c' :: b) := List.prefix_iff_eq_take.mpr htake
          have hpf' : strFind t (a ++ c' :: b) = 0 :=
            (strFind_eq_zero_iff t _).mpr (List.isPrefixOf_iff_prefix.mpr hpre')
          rw [extract_values.eq_def]
          simp only [hpf', if_pos rfl, if_true]
          rw [List.drop_append_of_le_length h2] at hok ⊢
          have hl' : litAt now rest (a.drop t.length).length = true := by
            rw [List.length_drop]; exact hlrest
          exact ih (a.drop t.length) b c c' m hf hl' hok hne
      · simp only [hpf, if_neg (by exact hpf), if_false] at hok
        cases hok

/-- Claim C7 (corrected) — for parse definitions consisting only of
literals and fixed-width fields, changing the single character at a position
lying inside a literal segment's span of an input that extraction accepts
makes extraction fail with ValueError (the NoMatchError of the spec), and
parse with any template compiling to that parse definition fails the same
way; with greedy fields present the claim is false, since the greedy field
can absorb the mutation and parse can still succeed. -/
theorem literal_region_mutation (now : PyDateTime) (pd : List PEntry)
    (a b : Str) (c c' : Char) (m : PyDict)
    (hf : FixedOnly now pd = true)
    (hl : litAt now pd a.length = true)
    (hok : extract_values now pd (a ++ c :: b) = .ok m)
    (hne : c ≠ c') :
    extract_values now pd (a ++ c' :: b) = .error .valueError ∧
    ∀ fmtS : Str, (extract_parsedef fmtS).1 = pd →
      parse fmtS (a ++ c' :: b) now = .error .valueError := by
  have herr := literal_region_mutation_aux now pd a b c c' m hf hl hok hne
  refine ⟨herr, fun fmtS hfmt => ?_⟩
  simp only [parse, hfmt, herr]
  rfl

/-- Witness for literal_region_mutation: mutating the first literal of a
literal-field-literal parse definition. -/
theorem literal_region_mutation_witness :
    extract_values nowA [.lit (S "ab"), .fld (S "x") (some (S "1s")), .lit (S "cd")]
        (S "a" ++ 'Q' :: S "Xcd") = .error .valueError ∧
    ∀ fmtS : Str,
      (extract_parsedef fmtS).1
        = [.lit (S "ab"), .fld (S "x") (some (S "1s")), .lit (S "cd")] →
      parse fmtS (S "a" ++ 'Q' :: S "Xcd") nowA = .error .valueError :=
  literal_region_mutation nowA
    [.lit (S "ab"), .fld (S "x") (some (S "1s")), .lit (S "cd")]
    (S "a") (S "Xcd") 'b' 'Q' [(S "x", .str (S "X"))]
    rfl rfl rfl (by decide)

/-- Counterexample for claim C7: with the greedy template the input
x_bq_b parses (positions one and two matched by the literal), yet mutating
position two to z still parses successfully with a different value instead
of failing with NoMatchError. -/
theorem literal_mutation_absorbed_cex :
    parse (S "\x7ba\x7d_b") (S "x_bq_b") nowA = .ok [(S "a", .str (S "x"))] ∧
    parse (S "\x7ba\x7d_b") (S "x_zq_b") nowA = .ok [(S "a", .str (S "x_zq"))] ∧
    (S "x_zq_b") = (S "x_").append ('z' :: S "q_b") ∧
    (S "x_bq_b") = (S "x_").append ('b' :: S "q_b") :=
  ⟨rfl, rfl, rfl, rfl⟩

/-- Claim C9 (corrected) — parse is a deterministic function of template,
input and the wall clock read by _get_number_from_fmt; when no field spec
contains a datetime directive the clock is never consulted and the result
depends on the pair (template, input) alone. -/
theorem parse_now_independent (fmtS s : Str) (now now' : PyDateTime)
    (h : noDatetime (extract_parsedef fmtS).1 = true) :
    parse fmtS s now = parse fmtS s now' := by
  have hx := extract_values_now_indep _ h s now now'
  simp only [parse, hx]

/-- Witness for parse_now_independent on a datetime-free template at the
May and September clock readings. -/
theorem parse_now_independent_witness :
    parse (S "x\x7ba:2s\x7dy") (S "xaby") nowMay
      = parse (S "x\x7ba:2s\x7dy") (S "xaby") nowSep :=
  parse_now_independent (S "x\x7ba:2s\x7dy") (S "xaby") nowMay nowSep (by decide)

theorem pyFmtAux_agree (V V' : PyDict) : ∀ (fmt : Str) (mode : Option Str),
    (∀ nm ∈ refNamesAux fmt mode, dlookup V nm = dlookup V' nm) →
    pyFmtAux V fmt mode = pyFmtAux V' fmt mode := by
  intro fmt mode
  induction fmt, mode using pyFmtAux.induct V with
  | case1 r ih =>
    intro hag
    rw [pyFmtAux.eq_1, pyFmtAux.eq_1,
      ih (fun nm h => hag nm (by rw [refNamesAux.eq_1]; exact h))]
  | case2 r ih =>
    intro hag
    rw [pyFmtAux.eq_2, pyFmtAux.eq_2,
      ih (fun nm h => hag nm (by rw [refNamesAux.eq_2]; exact h))]
  | case3 r hnot ih =>
    intro hag
    rw [pyFmtAux.eq_3 V r hnot, pyFmtAux.eq_3 V' r hnot,
      ih (fun nm h => hag nm (by rw [refNamesAux.eq_3 r hnot]; exact h))]
  | case4 tail hnot =>
    intro _hag
    rw [pyFmtAux.eq_4 V tail hnot, pyFmtAux.eq_4 V' tail hnot]
  | case5 c r h1 h2 h3 h4 ih =>
    intro hag
    rw [pyFmtAux.eq_5 V c r h1 h2 h3 h4, pyFmtAux.eq_5 V' c r h1 h2 h3 h4,
      ih (fun nm h => hag nm (by rw [refNamesAux.eq_5 c r h1 h2 h3 h4]; exact h))]
  | case6 =>
    intro _hag
    rfl
  | case7 r acc hnone =>
    intro hag
    have hmem : (splitFieldTok acc).1 ∈ refNamesAux ('}' :: r) (some acc) := by
      rw [refNamesAux.eq_7]
      exact List.mem_cons_self _ _
    have hname : dlookup V' (splitFieldTok acc).1 = none := by
      rw [← hag _ hmem]; exact hnone
    rw [pyFmtAux.eq_7, pyFmtAux.eq_7, hnone, hname]
  | case8 r acc v hsome ih =>
    intro hag
    have hmem : (splitFieldTok acc).1 ∈ refNamesAux ('}' :: r) (some acc) := by
      rw [refNamesAux.eq_7]
      exact List.mem_cons_self _ _
    have hname : dlookup V' (splitFieldTok acc).1 = some v := by
      rw [← hag _ hmem]; exact hsome
    have hag' : ∀ nm ∈ refNamesAux r none, dlookup V nm = dlookup V' nm := by
      intro nm h
      refine hag nm ?_
      rw [refNamesAux.eq_7]
      exact List.mem_cons_of_mem _ h
    rw [pyFmtAux.eq_7, pyFmtAux.eq_7, hsome, hname, ih hag']
  | case9 c r acc hc ih =>
    intro hag
    rw [pyFmtAux.eq_8 V c r acc hc, pyFmtAux.eq_8 V' c r acc hc,
      ih (fun nm h => hag nm (by rw [refNamesAux.eq_8 c r acc hc]; exact h))]
  | case10 val =>
    intro _hag
    rfl

/-- Claim C10 (corrected) — compose reads only the field names the template
references: appending surplus keys to a mapping that already binds every
referenced name leaves the output (success or failure alike) unchanged, so
extra keys never cause an error; presence of all names alone does not
guarantee success, since a spec-incompatible value still raises. -/
theorem compose_ignores_surplus_keys (fmtS : Str) (V extra : PyDict)
    (h : ∀ nm ∈ refNamesAux fmtS none, (dlookup V nm).isSome = true) :
    compose fmtS (V ++ extra) = compose fmtS V := by
  unfold compose
  exact pyFmtAux_agree (V ++ extra) V fmtS none
    (fun nm hm => dlookup_append_of_isSome V extra nm (h nm hm))

/-- Witness for compose_ignores_surplus_keys, with a surplus unreferenced
key and a surplus shadowed duplicate appended. -/
theorem compose_ignores_surplus_keys_witness :
    compose (S "x\x7ba\x7dy")
        ([(S "a", PyValue.str (S "1"))]
          ++ [(S "b", PyValue.int 2), (S "a", PyValue.str (S "zz"))])
      = compose (S "x\x7ba\x7dy") [(S "a", PyValue.str (S "1"))] :=
  compose_ignores_surplus_keys (S "x\x7ba\x7dy")
    [(S "a", PyValue.str (S "1"))]
    [(S "b", PyValue.int 2), (S "a", PyValue.str (S "zz"))] (by decide)

/-- Counterexample for claim C10: the mapping binds the only referenced
field name a, yet compose raises ValueError because the string value is
incompatible with the d format spec. -/
theorem compose_type_mismatch_cex :
    compose (S "\x7ba:4d\x7d") [(S "a", PyValue.str (S "xx"))] = .error .valueError ∧
      dlookup [(S "a", PyValue.str (S "xx"))] (S "a") = some (.str (S "xx")) :=
  ⟨rfl, rfl⟩

theorem natRenderAux_fuel (f : Nat) : ∀ (g n : Nat), n < f → n < g →
    natRenderAux f n = natRenderAux g n := by
  induction f with
  | zero => intro g n h _; omega
  | succ f ih =>
    intro g n hf hg
    cases g with
    | zero => omega
    | succ g =>
      by_cases h10 : n < 10
      · simp [natRenderAux, h10]
      · simp only [natRenderAux, h10, if_false]
        have hd : n / 10 < n := Nat.div_lt_self (by omega) (by omega)
        rw [ih g (n / 10) (by omega) (by omega)]

theorem natRender_unfold (n : Nat) : natRender n =
    if n < 10 then [digitChar n] else natRender (n / 10) ++ [digitChar (n % 10)] := by
  unfold natRender
  by_cases h10 : n < 10
  · simp [natRenderAux, h10]
  · simp only [natRenderAux, h10, if_false]
    have hd : n / 10 < n := Nat.div_lt_self (by omega) (by omega)
    congr 1
    exact natRenderAux_fuel n (n / 10 + 1) (n / 10) (by omega) (by omega)

theorem cval_digitChar (n : Nat) (h : n < 10) : cval (digitChar n) = n := by
  interval_cases n <;> rfl

theorem isDig_digitChar (n : Nat) (h : n < 10) : isDig (digitChar n) = true := by
  interval_cases n <;> rfl

theorem natRender_all_dig (n : Nat) : ∀ c ∈ natRender n, isDig c = true := by
  induction n using Nat.strong_induction_on with
  | _ n ih =>
    rw [natRender_unfold]
    by_cases h10 : n < 10
    · rw [if_pos h10]
      intro c hc
      rw [List.mem_singleton] at hc
      rw [hc]
      exact isDig_digitChar n h10
    · rw [if_neg h10]
      intro c hc
      rw [List.mem_append] at hc
      rcases hc with hc | hc
      · exact ih (n / 10) (Nat.div_lt_self (by omega) (by omega)) c hc
      · rw [List.mem_singleton] at hc
        rw [hc]
        exact isDig_digitChar (n % 10) (Nat.mod_lt n (by omega))

theorem parseFold_append (acc : Nat) (xs ys : Str) :
    parseFold acc (xs ++ ys) = parseFold (parseFold acc xs) ys := by
  unfold parseFold
  rw [List.foldl_append]

theorem parseFold_natRender (n : Nat) : ∀ acc : Nat,
    parseFold acc (natRender n) = acc * 10 ^ (natRender n).length + n := by
  induction n using Nat.strong_induction_on with
  | _ n ih =>
    intro acc
    rw [natRender_unfold]
    by_cases h10 : n < 10
    · rw [if_pos h10]
      show acc * 10 + cval (digitChar n) = acc * 10 ^ 1 + n
      rw [cval_digitChar n h10]
      ring
    · rw [if_neg h10]
      rw [parseFold_append]
      have hd : n / 10 < n := Nat.div_lt_self (by omega) (by omega)
      rw [ih (n / 10) hd acc]
      show (acc * 10 ^ (natRender (n / 10)).length + n / 10) * 10
          + cval (digitChar (n % 10)) = _
      rw [cval_digitChar (n % 10) (Nat.mod_lt n (by omega))]
      rw [List.length_append]
      simp only [List.length_singleton]
      rw [pow_succ]
      have := Nat.div_add_mod n 10
      ring_nf
      omega

theorem parseFold_zeros (k : Nat) : parseFold 0 (List.replicate k '0') = 0 := by
  induction k with
  | zero => rfl
  | succ k ih =>
    rw [List.replicate_succ]
    show parseFold (0 * 10 + cval '0') (List.replicate k '0') = 0
    exact ih

theorem parseFold_natRender_zero (n : Nat) : parseFold 0 (natRender n) = n := by
  rw [parseFold_natRender n 0]
  ring

theorem parseFold_padL (k n : Nat) : parseFold 0 (padL k '0' (natRender n)) = n := by
  unfold padL
  rw [parseFold_append, parseFold_zeros, parseFold_natRender_zero]

theorem natRender_length_pow (k : Nat) : ∀ n, 10 ^ k ≤ n → n < 10 ^ (k + 1) →
    (natRender n).length = k + 1 := by
  induction k with
  | zero =>
    intro n _h1 h2
    rw [natRender_unfold, if_pos (by simpa using h2)]
    rfl
  | succ k ih =>
    intro n h1 h2
    have hge : 10 ≤ 10 ^ (k + 1) := by
      calc 10 = 10 ^ 1 := (pow_one 10).symm
      _ ≤ 10 ^ (k + 1) := Nat.pow_le_pow_right (by omega) (by omega)
    have h10 : ¬ n < 10 := by omega
    rw [natRender_unfold, if_neg h10, List.length_append]
    have hdiv1 : 10 ^ k ≤ n / 10 := by
      rw [Nat.le_div_iff_mul_le (by omega)]
      calc 10 ^ k * 10 = 10 ^ (k + 1) := by rw [pow_succ]
      _ ≤ n := h1
    have hdiv2 : n / 10 < 10 ^ (k + 1) := by
      rw [Nat.div_lt_iff_lt_mul (by omega)]
      calc n < 10 ^ (k + 2) := h2
      _ = 10 ^ (k + 1) * 10 := by rw [pow_succ]
    rw [ih (n / 10) hdiv1 hdiv2]
    rfl

theorem natRender_length_le (k : Nat) : ∀ n, n < 10 ^ (k + 1) →
    (natRender n).length ≤ k + 1 := by
  induction k with
  | zero =>
    intro n h
    rw [natRender_unfold, if_pos (by simpa using h)]
    exact le_refl 1
  | succ k ih =>
    intro n h
    by_cases h10 : n < 10
    · rw [natRender_unfold, if_pos h10]
      simp
    · rw [natRender_unfold, if_neg h10, List.length_append]
      have hdiv : n / 10 < 10 ^ (k + 1) := by
        rw [Nat.div_lt_iff_lt_mul (by omega)]
        calc n < 10 ^ (k + 2) := h
        _ = 10 ^ (k + 1) * 10 := by rw [pow_succ]
      have := ih (n / 10) hdiv
      simp only [List.length_singleton]
      omega

theorem natRender_two (n : Nat) (h1 : 10 ≤ n) (h2 : n ≤ 99) :
    natRender n = [digitChar (n / 10), digitChar (n % 10)] := by
  rw [natRender_unfold, if_neg (by omega)]
  rw [natRender_unfold, if_pos (by omega)]
  rfl

theorem pad2_length (n : Nat) (h : n ≤ 99) : (pad2 n).length = 2 := by
  by_cases h10 : n < 10
  · rw [pad2, if_pos h10]
    rfl
  · rw [pad2, if_neg h10, natRender_two n (by omega) h]
    rfl

theorem takeDigits_exact : ∀ (ds next : Str), (∀ c ∈ ds, isDig c = true) →
    takeDigits ds.length (ds ++ next) = ds := by
  intro ds
  induction ds with
  | nil =>
    intro next _
    show takeDigits 0 next = []
    cases next <;> rfl
  | cons c ds ih =>
    intro next hd
    show takeDigits (ds.length + 1) (c :: (ds ++ next)) = c :: ds
    rw [takeDigits, hd c (List.mem_cons_self c ds), if_pos rfl]
    rw [ih next (fun x hx => hd x (List.mem_cons_of_mem c hx))]

theorem matchY_exact (y : Nat) (next : Str) (h1 : 1000 ≤ y) (h2 : y ≤ 9999) :
    matchY (natRender y ++ next) = .ok (y, next) := by
  have hlen : (natRender y).length = 4 :=
    natRender_length_pow 3 y (by norm_num; omega) (by norm_num; omega)
  have htd : takeDigits 4 (natRender y ++ next) = natRender y := by
    rw [← hlen]
    exact takeDigits_exact _ next (natRender_all_dig y)
  obtain ⟨d1, drest, hny⟩ : ∃ d1 drest, natRender y = d1 :: drest := by
    cases hny : natRender y with
    | nil => rw [hny] at hlen; cases hlen
    | cons a b => exact ⟨a, b, rfl⟩
  unfold matchY
  rw [htd, hny]
  show Except.ok (parseFold 0 (d1 :: drest),
      List.drop (d1 :: drest).length (d1 :: drest ++ next)) = _
  rw [← hny, parseFold_natRender_zero, List.drop_left]

theorem matchMonth_pad2 (m : Nat) (h1 : 1 ≤ m) (h2 : m ≤ 12) (next : Str) :
    matchMonth (pad2 m ++ next) = .ok (m, next) := by
  interval_cases m <;> rfl

theorem matchDay_pad2 (d : Nat) (h1 : 1 ≤ d) (h2 : d ≤ 31) (next : Str) :
    matchDay (pad2 d ++ next) = .ok (d, next) := by
  interval_cases d <;> rfl

theorem matchHour_pad2 (h : Nat) (h2 : h ≤ 23) (next : Str) :
    matchHour (pad2 h ++ next) = .ok (h, next) := by
  interval_cases h <;> rfl

theorem matchMinute_pad2 (m : Nat) (h2 : m ≤ 59) (next : Str) :
    matchMinute (pad2 m ++ next) = .ok (m, next) := by
  interval_cases m <;> rfl

theorem daysInMonth_le (y m : Nat) : daysInMonth y m ≤ 31 := by
  unfold daysInMonth
  split_ifs <;> omega

theorem strftime_fmtT (t : PyDateTime) :
    strftime t fmtT =
      natRender t.year ++ (pad2 t.month ++ (pad2 t.day ++
        '_' :: (pad2 t.hour ++ (pad2 t.minute ++ [])))) := rfl

theorem strftime_fmtT_length (t : PyDateTime) (hy1 : 1000 ≤ t.year)
    (hy2 : t.year ≤ 9999) (hm : t.month ≤ 99) (hd : t.day ≤ 99)
    (hh : t.hour ≤ 99) (hmin : t.minute ≤ 99) :
    (strftime t fmtT).length = 13 := by
  rw [strftime_fmtT]
  have h1 : (natRender t.year).length = 4 :=
    natRender_length_pow 3 t.year (by norm_num; omega) (by norm_num; omega)
  simp only [List.length_append, List.length_cons, List.length_nil, h1,
    pad2_length t.month hm, pad2_length t.day hd, pad2_length t.hour hh,
    pad2_length t.minute hmin]

theorem strptime_fmtT (t : PyDateTime)
    (hy1 : 1000 ≤ t.year) (hy2 : t.year ≤ 9999)
    (hm1 : 1 ≤ t.month) (hm2 : t.month ≤ 12)
    (hd1 : 1 ≤ t.day) (hd2 : t.day ≤ daysInMonth t.year t.month)
    (hh : t.hour ≤ 23) (hmin : t.minute ≤ 59) :
    strptime (strftime t fmtT) fmtT
      = .ok ⟨t.year, t.month, t.day, t.hour, t.minute, 0, 0⟩ := by
  have e1 : strptimeAux ⟨1900, 1, 1, 0, 0, 0, 0⟩ fmtT (strftime t fmtT)
      = .ok ⟨t.year, t.month, t.day, t.hour, t.minute, 0, 0⟩ := by
    rw [strftime_fmtT]
    show (matchY (natRender t.year ++ (pad2 t.month ++ (pad2 t.day ++
        '_' :: (pad2 t.hour ++ (pad2 t.minute ++ [])))))).bind _ = _
    rw [matchY_exact _ _ hy1 hy2]
    show (matchMonth (pad2 t.month ++ (pad2 t.day ++
        '_' :: (pad2 t.hour ++ (pad2 t.minute ++ []))))).bind _ = _
    rw [matchMonth_pad2 _ hm1 hm2]
    show (matchDay (pad2 t.day ++
        '_' :: (pad2 t.hour ++ (pad2 t.minute ++ [])))).bind _ = _
    rw [matchDay_pad2 _ hd1 (le_trans hd2 (daysInMonth_le t.year t.month))]
    show (matchHour (pad2 t.hour ++ (pad2 t.minute ++ []))).bind _ = _
    rw [matchHour_pad2 _ hh]
    show (matchMinute (pad2 t.minute ++ [])).bind _ = _
    rw [matchMinute_pad2 _ hmin]
    rfl
  unfold strptime
  rw [e1]
  show (if _ then _ else _) = _
  rw [if_pos]
  simp only [Bool.and_eq_true, decide_eq_true_eq]
  refine ⟨⟨⟨⟨⟨⟨?_, ?_⟩, ?_⟩, ?_⟩, ?_⟩, ?_⟩, ?_⟩ <;> first | exact hd2 | omega

theorem isSpaceC_of_isDig (c : Char) (h : isDig c = true) : isSpaceC c = false := by
  have h48 : 48 ≤ c.toNat ∧ c.toNat ≤ 57 := by
    unfold isDig at h
    simp only [Bool.and_eq_true, decide_eq_true_eq] at h
    exact h
  have e1 : c ≠ ' ' := fun hc => by rw [hc] at h48; exact absurd h48.1 (by decide)
  have e2 : c ≠ '\t' := fun hc => by rw [hc] at h48; exact absurd h48.1 (by decide)
  have e3 : c ≠ '\n' := fun hc => by rw [hc] at h48; exact absurd h48.1 (by decide)
  have e4 : c ≠ '\r' := fun hc => by rw [hc] at h48; exact absurd h48.1 (by decide)
  simp [isSpaceC, e1, e2, e3, e4]

theorem dropWhile_isSpaceC_of_digits (s : Str) (hd : ∀ c ∈ s, isDig c = true) :
    s.dropWhile isSpaceC = s := by
  cases s with
  | nil => rfl
  | cons c r =>
    rw [List.dropWhile_cons,
      isSpaceC_of_isDig c (hd c (List.mem_cons_self c r))]
    simp

theorem pyInt_digits (s : Str) (hne : s ≠ []) (hd : ∀ c ∈ s, isDig c = true) :
    pyInt s = .ok ((parseFold 0 s : Nat) : Int) := by
  unfold pyInt
  have h1 : s.dropWhile isSpaceC = s := dropWhile_isSpaceC_of_digits s hd
  have h2 : s.reverse.dropWhile isSpaceC = s.reverse := by
    apply dropWhile_isSpaceC_of_digits
    intro c hc
    exact hd c (List.mem_reverse.mp hc)
  simp only [h1, h2, List.reverse_reverse]
  have hall : s.all isDig = true := List.all_eq_true.mpr hd
  split
  · exfalso
    rename_i ds
    exact absurd (hd '-' (List.mem_cons_self '-' ds)) (by decide)
  · exfalso
    rename_i ds
    exact absurd (hd '+' (List.mem_cons_self '+' ds)) (by decide)
  · rw [if_pos]
    rw [Bool.and_eq_true]
    constructor
    · cases s with
      | nil => exact absurd rfl hne
      | cons c r => rfl
    · exact hall

theorem natRender_ne_nil (n : Nat) : natRender n ≠ [] := by
  rw [natRender_unfold]
  by_cases h10 : n < 10
  · rw [if_pos h10]; simp
  · rw [if_neg h10]; simp

theorem padL_all_dig (k n : Nat) : ∀ c ∈ padL k '0' (natRender n), isDig c = true := by
  intro c hc
  unfold padL at hc
  rw [List.mem_append] at hc
  rcases hc with hc | hc
  · rw [List.eq_of_mem_replicate hc]; rfl
  · exact natRender_all_dig n c hc

theorem pyInt_padL (k n : Nat) : pyInt (padL k '0' (natRender n)) = .ok (n : Int) := by
  have hne : padL k '0' (natRender n) ≠ [] := by
    unfold padL
    intro h
    rw [List.append_eq_nil] at h
    exact natRender_ne_nil n h.2
  rw [pyInt_digits _ hne (padL_all_dig k n), parseFold_padL]

theorem padL_length_of_le (k : Nat) (c : Char) (s : Str) (h : s.length ≤ k) :
    (padL k c s).length = k := by
  unfold padL
  rw [List.length_append, List.length_replicate]
  omega

theorem padSide_of_le (fill align : Char) (w : Nat) (body : Str)
    (h : w ≤ body.length) : padSide fill align w body = body := by
  unfold padSide
  rw [if_pos h]

theorem intFmt_zero_pad (o w : Nat) :
    intFmt (o : Int) ' ' none true w = padL w '0' (natRender o) := by
  unfold intFmt padL
  rw [if_neg (by omega)]
  simp [Int.natAbs_ofNat]

theorem pyFmtAux_lit_run (V : PyDict) (cs : Str) :
    braceFree cs = true → ∀ r : Str,
    pyFmtAux V (cs ++ r) none = (pyFmtAux V r none).map (fun t => cs ++ t) := by
  induction cs with
  | nil =>
    intro _ r
    show pyFmtAux V r none = _
    cases pyFmtAux V r none <;> rfl
  | cons c cs ih =>
    intro hb r
    simp only [braceFree, List.all_cons, Bool.and_eq_true, decide_eq_true_eq] at hb
    obtain ⟨⟨hc1, hc2⟩, hrest⟩ := hb
    have hrest' : braceFree cs = true := by
      simp only [braceFree, List.all_eq_true]
      intro x hx
      simp only [Bool.and_eq_true, decide_eq_true_eq]
      have := List.all_eq_true.mp hrest x hx
      simpa using this
    show pyFmtAux V (c :: (cs ++ r)) none = _
    rw [pyFmtAux.eq_5 V c (cs ++ r)
      (fun _ hc _ => hc1 hc) (fun _ hc _ => hc2 hc) hc1 hc2]
    rw [ih hrest' r]
    cases pyFmtAux V r none <;> rfl

theorem pyFmtAux_field (V : PyDict) : ∀ (inner acc r : Str),
    braceFree inner = true →
    pyFmtAux V (inner ++ '}' :: r) (some acc) =
      (match dlookup V (splitFieldTok (acc ++ inner)).1 with
       | none => Except.error PyErr.keyError
       | some v => do
           let rend ← formatValue v (splitFieldTok (acc ++ inner)).2
           let t ← pyFmtAux V r none
           pure (rend ++ t)) := by
  intro inner
  induction inner with
  | nil =>
    intro acc r _
    show pyFmtAux V ('}' :: r) (some acc) = _
    rw [pyFmtAux.eq_7, List.append_nil]
  | cons c cs ih =>
    intro acc r hb
    simp only [braceFree, List.all_cons, Bool.and_eq_true, decide_eq_true_eq] at hb
    obtain ⟨⟨_hc1, hc2⟩, hrest⟩ := hb
    have hrest' : braceFree cs = true := by
      simp only [braceFree]
      exact hrest
    show pyFmtAux V (c :: (cs ++ '}' :: r)) (some acc) = _
    rw [pyFmtAux.eq_8 V c (cs ++ '}' :: r) acc hc2]
    rw [ih (acc ++ [c]) r hrest']
    simp only [List.append_assoc, List.singleton_append]

theorem strFind_head_notin (hc : Char) (nmr : Str) (z : Str) :
    ∀ x : Str, x.contains hc = false →
    strFind (hc :: nmr) (x ++ ((hc :: nmr) ++ z)) = (x.length : Int) := by
  intro x
  induction x with
  | nil =>
    intro _
    show strFind (hc :: nmr) ((hc :: nmr) ++ z) = 0
    exact (strFind_eq_zero_iff _ _).mpr
      (List.isPrefixOf_iff_prefix.mpr (List.prefix_append _ _))
  | cons a x ih =>
    intro hx
    simp only [List.contains_cons, Bool.or_eq_false_iff] at hx
    obtain ⟨ha, hx'⟩ := hx
    have hane : a ≠ hc := by
      intro haa
      rw [haa] at ha
      simp at ha
    have hnp : ((hc :: nmr).isPrefixOf (a :: (x ++ ((hc :: nmr) ++ z)))) = false := by
      cases hp : (hc :: nmr).isPrefixOf (a :: (x ++ ((hc :: nmr) ++ z))) with
      | false => rfl
      | true =>
        exfalso
        obtain ⟨u, hu⟩ := List.isPrefixOf_iff_prefix.mp hp
        have : hc = a := (List.cons.inj hu).1
        exact hane this.symm
    show strFind (hc :: nmr) (a :: (x ++ ((hc :: nmr) ++ z))) = _
    rw [strFind, hnp]
    simp only [Bool.false_eq_true, if_false]
    rw [ih hx']
    have hz : ¬ ((x.length : Int) = -1) := by omega
    rw [if_neg hz]
    simp only [List.length_cons]
    push_cast
    ring

theorem extract_lit_step (now : PyDateTime) (t : Str) (rest : List PEntry)
    (s : Str) :
    extract_values now (.lit t :: rest) (t ++ s) = extract_values now rest s := by
  have hz : strFind t (t ++ s) = 0 :=
    (strFind_eq_zero_iff _ _).mpr
      (List.isPrefixOf_iff_prefix.mpr (List.prefix_append _ _))
  rw [extract_values.eq_def]
  simp only [hz, List.drop_left, if_true]

theorem extract_last_lit (now : PyDateTime) (t : Str) :
    extract_values now [.lit t] t = .ok [] := by
  have := extract_lit_step now t [] []
  rw [List.append_nil] at this
  rw [this]
  rfl

theorem extract_greedy_step (now : PyDateTime) (key : Str) (hc : Char)
    (nmr : Str) (rest' : List PEntry) (x z : Str) (hx : x.contains hc = false) :
    extract_values now (.fld key none :: .lit (hc :: nmr) :: rest')
        (x ++ ((hc :: nmr) ++ z))
      = (extract_values now (.lit (hc :: nmr) :: rest') ((hc :: nmr) ++ z)).map
          (fun kv => pyInsert kv key (.str x)) := by
  have hfind : strFind (hc :: nmr) (x ++ ((hc :: nmr) ++ z)) = (x.length : Int) :=
    strFind_head_notin hc nmr z x hx
  have hslice : pySliceTo (x ++ ((hc :: nmr) ++ z)) (x.length : Int) = x := by
    unfold pySliceTo
    rw [if_pos (by omega)]
    simp only [Int.toNat_natCast]
    exact List.take_left x _
  show (extract_values now (.lit (hc :: nmr) :: rest')
      ((x ++ ((hc :: nmr) ++ z)).drop
        (pySliceTo (x ++ ((hc :: nmr) ++ z))
          (strFind (hc :: nmr) (x ++ ((hc :: nmr) ++ z)))).length)).map
      (fun kv => pyInsert kv key
        (.str (pySliceTo (x ++ ((hc :: nmr) ++ z))
          (strFind (hc :: nmr) (x ++ ((hc :: nmr) ++ z)))))) = _
  rw [hfind, hslice, List.drop_left]

theorem extract_fixed_exact (now : PyDateTime) (key f : Str)
    (rest : List PEntry) (v s : Str) (w : Nat) (h1 : isalphaStr f = false)
    (h2 : get_number_from_fmt f now = .ok w) (hv : v.length = w) :
    extract_values now (.fld key (some f) :: rest) (v ++ s)
      = (extract_values now rest s).map (fun kv => pyInsert kv key (.str v)) := by
  rw [extract_fixed_step now key f rest (v ++ s) w h1 h2]
  rw [List.take_left' hv, List.drop_left' hv]

theorem pyFmtAux_field_ok (V : PyDict) (inner acc r : Str) (v : PyValue)
    (rend : Str) (hb : braceFree inner = true)
    (hlk : dlookup V (splitFieldTok (acc ++ inner)).1 = some v)
    (hfv : formatValue v (splitFieldTok (acc ++ inner)).2 = .ok rend) :
    pyFmtAux V (inner ++ '}' :: r) (some acc)
      = (pyFmtAux V r none).map (fun u => rend ++ u) := by
  rw [pyFmtAux_field V inner acc r hb, hlk]
  show (do
    let rend2 ← formatValue v (splitFieldTok (acc ++ inner)).2
    let u ← pyFmtAux V r none
    pure (rend2 ++ u) : Except PyErr Str) = _
  rw [hfv]
  cases pyFmtAux V r none <;> rfl

theorem compose_testFmt (d p n : Str) (t : PyDateTime) (o : Nat)
    (hp : p.length = 4) (hn : n.length = 2) :
    compose testFmt (tV d p n t o) =
      .ok (S "/somedir/" ++ (d ++ (S "/hrpt_" ++ (p ++ (n ++ (S "_" ++
        (strftime t fmtT ++ (S "_" ++ (padL 5 '0' (natRender o)
          ++ S ".l1b"))))))))) := by
  have hO : pyFmtAux (tV d p n t o) ('{' :: (S "orbit:05d" ++ '}' :: S ".l1b")) none
      = .ok (padL 5 '0' (natRender o) ++ S ".l1b") := by
    rw [pyFmtAux.eq_3 _ _ (by intro r1 h; simp [S] at h)]
    rw [pyFmtAux_field_ok (tV d p n t o) (S "orbit:05d") [] (S ".l1b")
      (PyValue.int (o : Int)) (padL 5 '0' (natRender o)) (by decide) rfl
      (by show Except.ok (intFmt (o : Int) ' ' none true 5)
            = Except.ok (padL 5 '0' (natRender o))
          rw [intFmt_zero_pad o 5])]
    rfl
  have hU2 : pyFmtAux (tV d p n t o)
      (S "_" ++ '{' :: (S "orbit:05d" ++ '}' :: S ".l1b")) none
      = .ok (S "_" ++ (padL 5 '0' (natRender o) ++ S ".l1b")) := by
    rw [pyFmtAux_lit_run (tV d p n t o) (S "_") (by decide), hO]
    rfl
  have hT : pyFmtAux (tV d p n t o)
      ('{' :: (S "time:%Y%m%d_%H%M" ++ '}' ::
        (S "_" ++ '{' :: (S "orbit:05d" ++ '}' :: S ".l1b")))) none
      = .ok (strftime t fmtT ++ (S "_" ++ (padL 5 '0' (natRender o)
          ++ S ".l1b"))) := by
    rw [pyFmtAux.eq_3 _ _ (by intro r1 h; simp [S] at h)]
    rw [pyFmtAux_field_ok (tV d p n t o) (S "time:%Y%m%d_%H%M") []
      (S "_" ++ '{' :: (S "orbit:05d" ++ '}' :: S ".l1b"))
      (PyValue.dt t) (strftime t fmtT) (by decide) rfl rfl]
    rw [hU2]
    rfl
  have hU1 : pyFmtAux (tV d p n t o)
      (S "_" ++ '{' :: (S "time:%Y%m%d_%H%M" ++ '}' ::
        (S "_" ++ '{' :: (S "orbit:05d" ++ '}' :: S ".l1b")))) none
      = .ok (S "_" ++ (strftime t fmtT ++ (S "_" ++ (padL 5 '0' (natRender o)
          ++ S ".l1b")))) := by
    rw [pyFmtAux_lit_run (tV d p n t o) (S "_") (by decide), hT]
    rfl
  have hN : pyFmtAux (tV d p n t o)
      ('{' :: (S "platnum:2s" ++ '}' ::
        (S "_" ++ '{' :: (S "time:%Y%m%d_%H%M" ++ '}' ::
          (S "_" ++ '{' :: (S "orbit:05d" ++ '}' :: S ".l1b")))))) none
      = .ok (n ++ (S "_" ++ (strftime t fmtT ++ (S "_" ++
          (padL 5 '0' (natRender o) ++ S ".l1b"))))) := by
    rw [pyFmtAux.eq_3 _ _ (by intro r1 h; simp [S] at h)]
    rw [pyFmtAux_field_ok (tV d p n t o) (S "platnum:2s") []
      (S "_" ++ '{' :: (S "time:%Y%m%d_%H%M" ++ '}' ::
        (S "_" ++ '{' :: (S "orbit:05d" ++ '}' :: S ".l1b"))))
      (PyValue.str n) n (by decide) rfl
      (by show Except.ok (padSide ' ' '<' 2 n) = Except.ok n
          rw [padSide_of_le ' ' '<' 2 n (by omega)])]
    rw [hU1]
    rfl
  have hP : pyFmtAux (tV d p n t o)
      ('{' :: (S "platform:4s" ++ '}' ::
        ('{' :: (S "platnum:2s" ++ '}' ::
          (S "_" ++ '{' :: (S "time:%Y%m%d_%H%M" ++ '}' ::
            (S "_" ++ '{' :: (S "orbit:05d" ++ '}' :: S ".l1b")))))))) none
      = .ok (p ++ (n ++ (S "_" ++ (strftime t fmtT ++ (S "_" ++
          (padL 5 '0' (natRender o) ++ S ".l1b")))))) := by
    rw [pyFmtAux.eq_3 _ _ (by intro r1 h; simp [S] at h)]
    rw [pyFmtAux_field_ok (tV d p n t o) (S "platform:4s") []
      ('{' :: (S "platnum:2s" ++ '}' ::
        (S "_" ++ '{' :: (S "time:%Y%m%d_%H%M" ++ '}' ::
          (S "_" ++ '{' :: (S "orbit:05d" ++ '}' :: S ".l1b"))))))
      (PyValue.str p) p (by decide) rfl
      (by show Except.ok (padSide ' ' '<' 4 p) = Except.ok p
          rw [padSide_of_le ' ' '<' 4 p (by omega)])]
    rw [hN]
    rfl
  have hH : pyFmtAux (tV d p n t o)
      (S "/hrpt_" ++ '{' :: (S "platform:4s" ++ '}' ::
        ('{' :: (S "platnum:2s" ++ '}' ::
          (S "_" ++ '{' :: (S "time:%Y%m%d_%H%M" ++ '}' ::
            (S "_" ++ '{' :: (S "orbit:05d" ++ '}' :: S ".l1b")))))))) none
      = .ok (S "/hrpt_" ++ (p ++ (n ++ (S "_" ++ (strftime t fmtT ++ (S "_" ++
          (padL 5 '0' (natRender o) ++ S ".l1b"))))))) := by
    rw [pyFmtAux_lit_run (tV d p n t o) (S "/hrpt_") (by decide), hP]
    rfl
  have hD : pyFmtAux (tV d p n t o)
      ('{' :: (S "directory" ++ '}' ::
        (S "/hrpt_" ++ '{' :: (S "platform:4s" ++ '}' ::
          ('{' :: (S "platnum:2s" ++ '}' ::
            (S "_" ++ '{' :: (S "time:%Y%m%d_%H%M" ++ '}' ::
              (S "_" ++ '{' :: (S "orbit:05d" ++ '}' :: S ".l1b")))))))))) none
      = .ok (d ++ (S "/hrpt_" ++ (p ++ (n ++ (S "_" ++ (strftime t fmtT ++
          (S "_" ++ (padL 5 '0' (natRender o) ++ S ".l1b")))))))) := by
    rw [pyFmtAux.eq_3 _ _ (by intro r1 h; simp [S] at h)]
    rw [pyFmtAux_field_ok (tV d p n t o) (S "directory") []
      (S "/hrpt_" ++ '{' :: (S "platform:4s" ++ '}' ::
        ('{' :: (S "platnum:2s" ++ '}' ::
          (S "_" ++ '{' :: (S "time:%Y%m%d_%H%M" ++ '}' ::
            (S "_" ++ '{' :: (S "orbit:05d" ++ '}' :: S ".l1b"))))))))
      (PyValue.str d) d (by decide) rfl
      (by show Except.ok (padSide ' ' '<' 0 d) = Except.ok d
          rw [padSide_of_le ' ' '<' 0 d (Nat.zero_le _)])]
    rw [hH]
    rfl
  show pyFmtAux (tV d p n t o) testFmt none = _
  have hsplit : testFmt = S "/somedir/" ++
      ('{' :: (S "directory" ++ '}' ::
        (S "/hrpt_" ++ '{' :: (S "platform:4s" ++ '}' ::
          ('{' :: (S "platnum:2s" ++ '}' ::
            (S "_" ++ '{' :: (S "time:%Y%m%d_%H%M" ++ '}' ::
              (S "_" ++ '{' :: (S "orbit:05d" ++ '}' :: S ".l1b")))))))))) := rfl
  rw [hsplit, pyFmtAux_lit_run (tV d p n t o) (S "/somedir/") (by decide), hD]
  rfl

theorem extract_testFmt (now : PyDateTime) (d p n : Str) (t : PyDateTime)
    (o : Nat) (hd : d.contains '/' = false) (hp : p.length = 4)
    (hn : n.length = 2) (ho : o < 100000)
    (ht13 : (strftime t fmtT).length = 13)
    (hw13 : get_number_from_fmt fmtT now = .ok 13) :
    extract_values now
      [.lit (S "/somedir/"), .fld (S "directory") none, .lit (S "/hrpt_"),
       .fld (S "platform") (some (S "4s")), .fld (S "platnum") (some (S "2s")),
       .lit (S "_"), .fld (S "time") (some fmtT), .lit (S "_"),
       .fld (S "orbit") (some (S "05d")), .lit (S ".l1b")]
      (S "/somedir/" ++ (d ++ (S "/hrpt_" ++ (p ++ (n ++ (S "_" ++
        (strftime t fmtT ++ (S "_" ++ (padL 5 '0' (natRender o)
          ++ S ".l1b")))))))))
    = .ok [(S "orbit", .str (padL 5 '0' (natRender o))),
           (S "time", .str (strftime t fmtT)),
           (S "platnum", .str n), (S "platform", .str p),
           (S "directory", .str d)] := by
  have hOlen : (padL 5 '0' (natRender o)).length = 5 :=
    padL_length_of_le 5 '0' (natRender o)
      (natRender_length_le 4 o (by norm_num; omega))
  rw [extract_lit_step]
  rw [show S "/hrpt_" = '/' :: S "hrpt_" from rfl]
  rw [extract_greedy_step now (S "directory") '/' (S "hrpt_") _ d _ hd]
  rw [extract_lit_step]
  rw [extract_fixed_exact now (S "platform") (S "4s") _ p _ 4 rfl rfl hp]
  rw [extract_fixed_exact now (S "platnum") (S "2s") _ n _ 2 rfl rfl hn]
  rw [extract_lit_step]
  rw [extract_fixed_exact now (S "time") fmtT _ (strftime t fmtT) _ 13
    rfl hw13 ht13]
  rw [extract_lit_step]
  rw [extract_fixed_exact now (S "orbit") (S "05d") _
    (padL 5 '0' (natRender o)) _ 5 rfl rfl hOlen]
  rw [extract_last_lit]
  rfl

theorem convStep_ok (kv : PyDict) (key spec raw : Str) (c : PyValue)
    (h1 : dlookup kv key = some (.str raw)) (h2 : convert spec raw = .ok c) :
    convStep kv (key, spec) = .ok (pyInsert kv key c) := by
  unfold convStep
  rw [h1]
  show (do
    let c2 ← convert spec raw
    pure (pyInsert kv key c2) : Except PyErr PyDict) = _
  rw [h2]
  rfl

/-- Claim C1 (corrected) — the round trip holds for the integration-test
template when the mapping satisfies the declared types and widths and the
greedy field's value avoids the following literal's leading slash: composing
and re-parsing returns a mapping equal, as a lookup function, to the
original. Unrestricted, the claim is false: a greedy value containing the
next literal breaks the boundary. -/
theorem roundtrip_testFmt (now : PyDateTime) (d p n : Str) (t : PyDateTime)
    (o : Nat)
    (hd : d.contains '/' = false) (hp : p.length = 4) (hn : n.length = 2)
    (ho : o < 100000)
    (hty1 : 1000 ≤ t.year) (hty2 : t.year ≤ 9999)
    (htm1 : 1 ≤ t.month) (htm2 : t.month ≤ 12)
    (htd1 : 1 ≤ t.day) (htd2 : t.day ≤ daysInMonth t.year t.month)
    (hth : t.hour ≤ 23) (htmin : t.minute ≤ 59)
    (hts : t.second = 0) (htus : t.microsecond = 0)
    (hny1 : 1000 ≤ now.year) (hny2 : now.year ≤ 9999)
    (hnm : now.month ≤ 99) (hnd : now.day ≤ 99) (hnh : now.hour ≤ 99)
    (hnmin : now.minute ≤ 99) :
    ∃ s m, compose testFmt (tV d p n t o) = .ok s ∧
      parse testFmt s now = .ok m ∧
      ∀ k, dlookup m k = dlookup (tV d p n t o) k := by
  have ht13 : (strftime t fmtT).length = 13 :=
    strftime_fmtT_length t hty1 hty2 (by omega)
      (le_trans htd2 (le_trans (daysInMonth_le t.year t.month) (by omega)))
      (by omega) (by omega)
  have hw13 : get_number_from_fmt fmtT now = .ok 13 := by
    show Except.ok (strftime now fmtT).length = _
    rw [strftime_fmtT_length now hny1 hny2 hnm hnd hnh hnmin]
  have hteq : (⟨t.year, t.month, t.day, t.hour, t.minute, 0, 0⟩ : PyDateTime)
      = t := by
    obtain ⟨y, mo, dy, hh2, mi, se, us⟩ := t
    simp only at hts htus
    rw [hts, htus]
  have hconvT : convert fmtT (strftime t fmtT) = .ok (.dt t) := by
    show (strptime (strftime t fmtT) fmtT).map PyValue.dt = _
    rw [strptime_fmtT t hty1 hty2 htm1 htm2 htd1 htd2 hth htmin]
    show Except.ok (PyValue.dt ⟨t.year, t.month, t.day, t.hour, t.minute, 0, 0⟩) = _
    rw [hteq]
  have hconvO : convert (S "05d") (padL 5 '0' (natRender o))
      = .ok (.int (o : Int)) := by
    show (pyInt (padL 5 '0' (natRender o))).map PyValue.int = _
    rw [pyInt_padL 5 o]
    rfl
  refine ⟨_, [(S "orbit", PyValue.int (o : Int)), (S "time", .dt t),
    (S "platnum", .str n), (S "platform", .str p), (S "directory", .str d)],
    compose_testFmt d p n t o hp hn, ?_, ?_⟩
  · simp only [parse]
    rw [show (extract_parsedef testFmt).1 =
      [.lit (S "/somedir/"), .fld (S "directory") none, .lit (S "/hrpt_"),
       .fld (S "platform") (some (S "4s")), .fld (S "platnum") (some (S "2s")),
       .lit (S "_"), .fld (S "time") (some fmtT), .lit (S "_"),
       .fld (S "orbit") (some (S "05d")), .lit (S ".l1b")] from by decide]
    rw [show (extract_parsedef testFmt).2 =
      [(S "platform", S "4s"), (S "platnum", S "2s"), (S "time", fmtT),
       (S "orbit", S "05d")] from by decide]
    rw [extract_testFmt now d p n t o hd hp hn ho ht13 hw13]
    rw [ebind_ok]
    have hs1 : convStep
        [(S "orbit", PyValue.str (padL 5 '0' (natRender o))),
         (S "time", .str (strftime t fmtT)), (S "platnum", .str n),
         (S "platform", .str p), (S "directory", .str d)]
        (S "platform", S "4s")
      = .ok [(S "orbit", PyValue.str (padL 5 '0' (natRender o))),
         (S "time", .str (strftime t fmtT)), (S "platnum", .str n),
         (S "platform", .str p), (S "directory", .str d)] :=
      (convStep_ok [(S "orbit", PyValue.str (padL 5 '0' (natRender o))),
         (S "time", .str (strftime t fmtT)), (S "platnum", .str n),
         (S "platform", .str p), (S "directory", .str d)]
        (S "platform") (S "4s") p (.str p) rfl rfl).trans (by rfl)
    have hs2 : convStep
        [(S "orbit", PyValue.str (padL 5 '0' (natRender o))),
         (S "time", .str (strftime t fmtT)), (S "platnum", .str n),
         (S "platform", .str p), (S "directory", .str d)]
        (S "platnum", S "2s")
      = .ok [(S "orbit", PyValue.str (padL 5 '0' (natRender o))),
         (S "time", .str (strftime t fmtT)), (S "platnum", .str n),
         (S "platform", .str p), (S "directory", .str d)] :=
      (convStep_ok [(S "orbit", PyValue.str (padL 5 '0' (natRender o))),
         (S "time", .str (strftime t fmtT)), (S "platnum", .str n),
         (S "platform", .str p), (S "directory", .str d)]
        (S "platnum") (S "2s") n (.str n) rfl rfl).trans (by rfl)
    have hs3 : convStep
        [(S "orbit", PyValue.str (padL 5 '0' (natRender o))),
         (S "time", .str (strftime t fmtT)), (S "platnum", .str n),
         (S "platform", .str p), (S "directory", .str d)]
        (S "time", fmtT)
      = .ok [(S "orbit", PyValue.str (padL 5 '0' (natRender o))),
         (S "time", .dt t), (S "platnum", .str n),
         (S "platform", .str p), (S "directory", .str d)] :=
      (convStep_ok [(S "orbit", PyValue.str (padL 5 '0' (natRender o))),
         (S "time", .str (strftime t fmtT)), (S "platnum", .str n),
         (S "platform", .str p), (S "directory", .str d)]
        (S "time") fmtT (strftime t fmtT) (.dt t) rfl
        hconvT).trans (by rfl)
    have hs4 : convStep
        [(S "orbit", PyValue.str (padL 5 '0' (natRender o))),
         (S "time", .dt t), (S "platnum", .str n),
         (S "platform", .str p), (S "directory", .str d)]
        (S "orbit", S "05d")
      = .ok [(S "orbit", PyValue.int (o : Int)),
         (S "time", .dt t), (S "platnum", .str n),
         (S "platform", .str p), (S "directory", .str d)] :=
      (convStep_ok [(S "orbit", PyValue.str (padL 5 '0' (natRender o))),
         (S "time", .dt t), (S "platnum", .str n),
         (S "platform", .str p), (S "directory", .str d)]
        (S "orbit") (S "05d") (padL 5 '0' (natRender o))
        (.int (o : Int)) rfl hconvO).trans (by rfl)
    rw [List.foldlM_cons, hs1, ebind_ok]
    rw [List.foldlM_cons, hs2, ebind_ok]
    rw [List.foldlM_cons, hs3, ebind_ok]
    rw [List.foldlM_cons, hs4, ebind_ok]
    rw [List.foldlM_nil]
    rfl
  · intro k
    by_cases h1 : S "directory" = k
    · rw [← h1]; rfl
    by_cases h2 : S "platform" = k
    · rw [← h2]; rfl
    by_cases h3 : S "platnum" = k
    · rw [← h3]; rfl
    by_cases h4 : S "time" = k
    · rw [← h4]; rfl
    by_cases h5 : S "orbit" = k
    · rw [← h5]; rfl
    show dlookup [(S "orbit", PyValue.int (o : Int)), (S "time", .dt t),
      (S "platnum", .str n), (S "platform", .str p),
      (S "directory", .str d)] k = dlookup (tV d p n t o) k
    simp only [dlookup, tV, if_neg h1, if_neg h2, if_neg h3, if_neg h4,
      if_neg h5]

/-- Witness for roundtrip_testFmt at the integration test's own data. -/
theorem roundtrip_testFmt_witness :
    ∃ s m, compose testFmt (tV (S "otherdir") (S "noaa") (S "16")
        ⟨2014, 2, 10, 10, 4, 0, 0⟩ 69022) = .ok s ∧
      parse testFmt s nowA = .ok m ∧
      ∀ k, dlookup m k = dlookup (tV (S "otherdir") (S "noaa") (S "16")
        ⟨2014, 2, 10, 10, 4, 0, 0⟩ 69022) k :=
  roundtrip_testFmt nowA (S "otherdir") (S "noaa") (S "16")
    ⟨2014, 2, 10, 10, 4, 0, 0⟩ 69022 (by decide) (by decide) (by decide)
    (by decide) (by decide) (by decide) (by decide) (by decide) (by decide)
    (by decide) (by decide) (by decide) (by decide) (by decide) (by decide)
    (by decide) (by decide) (by decide) (by decide) (by decide)

/-- Counterexample for claim C1: with the greedy template and a value whose
greedy field contains the following literal, composing succeeds but parsing
the composed string returns a different mapping, refuting the unrestricted
round trip. -/
theorem roundtrip_greedy_cex :
    compose (S "\x7ba\x7d_b") [(S "a", PyValue.str (S "x_b"))]
      = .ok (S "x_b_b") ∧
    parse (S "\x7ba\x7d_b") (S "x_b_b") nowA
      = .ok [(S "a", PyValue.str (S "x"))] ∧
    PyValue.str (S "x") ≠ PyValue.str (S "x_b") :=
  ⟨rfl, rfl, by decide⟩

/-- Counterexample for claim C9: the %B directive width is measured by
formatting datetime.now(), so the same template and input parse differently
at a May clock (width three, strptime fails on Sep) and a September clock
(width nine, full month name parses). -/
theorem parse_depends_on_now_cex :
    parse (S "\x7bt:%B\x7d") (S "September") nowMay = .error .valueError ∧
    parse (S "\x7bt:%B\x7d") (S "September") nowSep
      = .ok [(S "t", .dt ⟨1900, 9, 1, 0, 0, 0, 0⟩)] ∧
    (Except.error PyErr.valueError : Except PyErr PyDict)
      ≠ .ok [(S "t", .dt ⟨1900, 9, 1, 0, 0, 0, 0⟩)] :=
  ⟨rfl, rfl, by simp⟩

end Trollsift
